import Mathlib

/-!
Verification development for the crypto-pulse-bot price aggregation core.

The JavaScript source is shallowly embedded as Lean functions:
* provider clients `fetchFromBinance` (src: binance.js) and `fetchFromCoinGecko`
  (src: coingecko.js) become total functions over a model of the HTTP response
  they would receive (network effects are an explicit parameter);
* the aggregation facade `getAggregatedPrice` (src: aggregator.js) becomes a
  function threading the module-level cache `Map` as explicit state
  (a `Map.set` overwrite is modelled by prepending; `lookup` finds the most
  recent binding, matching `Map.get`);
* JS numbers are modelled as rationals (`ℚ`); the result of JS `Number(...)`
  applied to the strings the Binance API returns is modelled by `jsNumber`,
  whose codomain `JsNum` distinguishes NaN, signed Infinity and finite values.
-/

/-- Model of JS `String.prototype.toLowerCase()` (ASCII case folding,
which is all that the repository's inputs use). -/
def strLower (s : String) : String := ⟨s.data.map Char.toLower⟩

/-- Model of JS `String.prototype.toUpperCase()` (ASCII case folding). -/
def strUpper (s : String) : String := ⟨s.data.map Char.toUpper⟩

/-- Codomain of JS `Number(...)`: NaN, signed infinity, or a finite value
(modelled as a rational). -/
inductive JsNum where
  | nan : JsNum
  | inf : Bool → JsNum
  | fin : ℚ → JsNum
deriving DecidableEq

/-- Numeric value of a list of decimal digit characters. -/
def digitsVal (cs : List Char) : ℕ :=
  cs.foldl (fun a c => a * 10 + (c.toNat - 48)) 0

/-- A nonempty all-digit character list parses to its value, otherwise fails. -/
def decDigits? (cs : List Char) : Option ℕ :=
  if cs ≠ [] ∧ cs.all (fun c => c.isDigit) then some (digitsVal cs) else none

/-- Strip one optional leading sign, returning whether the sign is
non-negative and the remaining characters. -/
def signSplit : List Char → Bool × List Char
  | '+' :: r => (true, r)
  | '-' :: r => (false, r)
  | r => (true, r)

/-- Split a character list at the first decimal point, if any. -/
def splitDot : List Char → List Char × Option (List Char)
  | [] => ([], none)
  | c :: r =>
    if c = '.' then ([], some r)
    else
      let p := splitDot r
      (c :: p.1, p.2)

/-- Split a character list at the first exponent marker, if any. -/
def splitExpChars : List Char → List Char × Option (List Char)
  | [] => ([], none)
  | c :: r =>
    if c = 'e' ∨ c = 'E' then ([], some r)
    else
      let p := splitExpChars r
      (c :: p.1, p.2)

/-- Value of an unsigned decimal mantissa `digits[.digits]`;
fails (NaN) on anything else. -/
def mantissaVal? (cs : List Char) : Option ℚ :=
  match splitDot cs with
  | (i, none) => (decDigits? i).map (fun n => (n : ℚ))
  | (i, some f) =>
    if (i ≠ [] ∨ f ≠ []) ∧ i.all (fun c => c.isDigit) ∧ f.all (fun c => c.isDigit) then
      some ((digitsVal i : ℚ) + (digitsVal f : ℚ) / 10 ^ f.length)
    else none

/-- JS whitespace test for the characters relevant here. -/
def isWhite (c : Char) : Bool := c = ' ' ∨ c = '\t' ∨ c = '\n' ∨ c = '\r'

/-- Strip leading and trailing whitespace. -/
def trimChars (cs : List Char) : List Char :=
  ((cs.dropWhile isWhite).reverse.dropWhile isWhite).reverse

/-- Model of JS `Number(s)` on the decimal string literals a price API sends:
optional sign, decimal mantissa, optional decimal exponent, or `Infinity`;
an empty (all-whitespace) string is 0 and anything unparsable is NaN.
(Hex/octal/binary literals are outside the model; the Binance ticker API
only produces decimal price strings.) -/
def jsNumber (s : String) : JsNum :=
  let t := trimChars s.data
  if t = [] then .fin 0
  else
    let sp := signSplit t
    if sp.2 = "Infinity".data then .inf sp.1
    else
      let me := splitExpChars sp.2
      match mantissaVal? me.1 with
      | none => .nan
      | some q0 =>
        let q := if sp.1 then q0 else -q0
        match me.2 with
        | none => .fin q
        | some ecs =>
          let esp := signSplit ecs
          match decDigits? esp.2 with
          | none => .nan
          | some n => .fin (if esp.1 then q * 10 ^ n else q / 10 ^ n)

/-! ### CoinGecko provider client (src/services/coingecko.js) -/

/-- Static ticker-to-CoinGecko-id table `COIN_MAP` from coingecko.js. -/
def COIN_MAP : List (String × String) :=
  [ ("btc", "bitcoin"), ("eth", "ethereum"), ("usdt", "tether"),
    ("bnb", "binancecoin"), ("xrp", "ripple"), ("ada", "cardano"),
    ("doge", "dogecoin"), ("sol", "solana"), ("matic", "polygon") ]

/-- CoinGecko id for a symbol: `COIN_MAP[symbol.toLowerCase()] ||
symbol.toLowerCase()` from coingecko.js line 18. -/
def cgId (symbol : String) : String :=
  (List.lookup (strLower symbol) COIN_MAP).getD (strLower symbol)

/-- Model of the outcome of the axios GET in `fetchFromCoinGecko`:
either the request throws (timeout or non-2xx status), or it yields a JSON
object mapping coin ids to maps from quote currencies to numbers.
`data id = none` models `data[id]` being undefined; an inner `none` models
`data[id][vs]` being undefined. -/
inductive CGResp where
  | fail : CGResp
  | ok : (String → Option (String → Option ℚ)) → CGResp

/-- Embedding of `fetchFromCoinGecko(symbol, vsCurrency)` (coingecko.js
lines 16-30): on a thrown request return null; if `data[id]` is absent or
`data[id][vs]` is undefined return null; otherwise return
`Number(data[id][vs])`, which for a JSON number is the number itself. -/
def fetchFromCoinGecko (resp : CGResp) (symbol vs : String) : Option ℚ :=
  match resp with
  | .fail => none
  | .ok data =>
    let id := cgId symbol
    match data id with
    | none => none
    | some entry =>
      match entry (strLower vs) with
      | none => none
      | some q => some q

/-! ### Binance provider client (src/services/binance.js) -/

/-- Model of the outcome of one axios GET against the Binance ticker
endpoint: a thrown request (timeout or non-2xx), or a response whose
`data.price` field is missing (`none`) or a string. -/
inductive BinResp where
  | fail : BinResp
  | ok : Option String → BinResp
deriving DecidableEq

/-- The price string of a candidate response when the `res && res.data &&
res.data.price` truthiness test of binance.js line 36 passes: the request
succeeded and the price field is a nonempty string. -/
def priceIfTruthy : BinResp → Option String
  | .fail => none
  | .ok none => none
  | .ok (some s) => if s = "" then none else some s

/-- Embedding of the `for (const pair of pairsToTry)` loop of binance.js
lines 30-42: return `Number(res.data.price)` for the first candidate whose
response passes the truthiness test, otherwise fall through to null. -/
def tryPairs (resp : String → BinResp) : List String → Option JsNum
  | [] => none
  | p :: rest =>
    match priceIfTruthy (resp p) with
    | some s => some (jsNumber s)
    | none => tryPairs resp rest

/-- Candidate pair spellings from binance.js lines 27-29:
`[s+v, s+"USDT", s+"USD"]` with `s`, `v` uppercased. -/
def binancePairs (symbol vs : String) : List String :=
  [strUpper symbol ++ strUpper vs, strUpper symbol ++ "USDT", strUpper symbol ++ "USD"]

/-- Embedding of `fetchFromBinance(symbol, vsCurrency)` (binance.js lines
25-48): try the candidate pairs in order, with `resp` giving the network
outcome for each pair symbol. -/
def fetchFromBinance (resp : String → BinResp) (symbol vs : String) : Option JsNum :=
  tryPairs resp (binancePairs symbol vs)

/-! ### Aggregation facade (src/services/aggregator.js) -/

/-- One present provider result as pushed by aggregator.js lines 25 and 28:
`{provider, price}`. -/
structure ProviderResult where
  provider : String
  price : ℚ
deriving DecidableEq

/-- One cache entry as written by aggregator.js: `{ts, value}`, where a null
value records a no-price-available outcome. Timestamps are milliseconds. -/
structure CacheEntry where
  ts : ℕ
  value : Option ℚ
deriving DecidableEq

/-- The module-level `cache` Map, as an association list; `Map.set` is
modelled by prepending, so `List.lookup` (first match) agrees with
`Map.get` (most recent write). -/
abbrev Cache := List (String × CacheEntry)

/-- Cache freshness window: `TTL = 10 * 1000` milliseconds (aggregator.js
line 7). -/
def TTL : ℕ := 10 * 1000

/-- Embedding of `getCacheKey(symbol, vs)` (aggregator.js lines 9-11). -/
def getCacheKey (symbol vs : String) : String :=
  strLower symbol ++ "_" ++ strLower vs

/-- Default provider list from aggregator.js line 19:
`PREFERRED_PROVIDERS || ['coingecko','binance']`. -/
def defaultProviders : List String := ["coingecko", "binance"]

/-- Embedding of the provider fan-out loop of aggregator.js lines 22-30:
walk the preferred list, calling the matching client and collecting the
non-null results in order. The two clients are passed as functions of the
query, standing for the imported `fetchFromCoinGecko` / `fetchFromBinance`
together with the network responses of this aggregation. -/
def gatherResults (fetchCG fetchBin : String → String → Option ℚ)
    (symbol vs : String) : List String → List ProviderResult
  | [] => []
  | p :: rest =>
    if p = "coingecko" then
      match fetchCG symbol vs with
      | some v => ⟨"coingecko", v⟩ :: gatherResults fetchCG fetchBin symbol vs rest
      | none => gatherResults fetchCG fetchBin symbol vs rest
    else if p = "binance" then
      match fetchBin symbol vs with
      | some v => ⟨"binance", v⟩ :: gatherResults fetchCG fetchBin symbol vs rest
      | none => gatherResults fetchCG fetchBin symbol vs rest
    else gatherResults fetchCG fetchBin symbol vs rest

/-- Embedding of aggregator.js lines 37-38: sort the present prices
ascending (JS `sort((a,b)=>a-b)`) and take the element at index
`Math.floor(prices.length/2)`. Empty input yields `none`, matching the
guard on line 32 that precedes this computation in the source. -/
def resolvePrices (l : List ℚ) : Option ℚ :=
  (l.mergeSort (fun a b => a ≤ b))[l.length / 2]?

/-- Consensus over the collected results, aggregator.js lines 32-38: zero
present results yield null, otherwise the sorted-median pick over the
prices. -/
def resolveResults (results : List ProviderResult) : Option ℚ :=
  if results.length = 0 then none
  else resolvePrices (results.map fun r => r.price)

/-- The cache-miss path of `getAggregatedPrice` (aggregator.js lines
19-40): fan out to the providers, and either cache-and-return null (no
present results) or cache-and-return the median. -/
def aggregateFresh (fetchCG fetchBin : String → String → Option ℚ)
    (prefCfg : Option (List String)) (cache : Cache) (now : ℕ)
    (symbol vs : String) : Option ℚ × Cache :=
  let key := getCacheKey symbol vs
  let preferred := prefCfg.getD defaultProviders
  let results := gatherResults fetchCG fetchBin symbol vs preferred
  if results.length = 0 then
    (none, (key, ⟨now, none⟩) :: cache)
  else
    let median := resolvePrices (results.map fun r => r.price)
    (median, (key, ⟨now, median⟩) :: cache)

/-- Embedding of `getAggregatedPrice(symbol, vs)` (aggregator.js lines
13-41). `prefCfg` models the imported `PREFERRED_PROVIDERS` (undefined in
the shipped config, hence `none` at runtime); `now` models `Date.now()`;
the cache is threaded as explicit state. In the source `vs` defaults to
`'usd'`; callers here always pass it. -/
def getAggregatedPrice (fetchCG fetchBin : String → String → Option ℚ)
    (prefCfg : Option (List String)) (cache : Cache) (now : ℕ)
    (symbol vs : String) : Option ℚ × Cache :=
  let key := getCacheKey symbol vs
  match cache.lookup key with
  | some cached =>
    if now - cached.ts < TTL then (cached.value, cache)
    else aggregateFresh fetchCG fetchBin prefCfg cache now symbol vs
  | none => aggregateFresh fetchCG fetchBin prefCfg cache now symbol vs

/-! ### Conversion command (src/commands/convert.js) -/

/-- Outcome of the conversion handler after input parsing: the rejected
non-positive amount (lines 23-25 of convert.js), the missing-price reply
(lines 31-33), or a computed conversion (lines 35-36). -/
inductive ConvertOutcome where
  | invalidAmount : ConvertOutcome
  | noPrice : ConvertOutcome
  | converted : ℚ → ConvertOutcome
deriving DecidableEq

/-- Embedding of `handleConvertCommand` (convert.js lines 19-40) from the
point where `amount`, `from` and `to` have been parsed: reject a
non-positive amount; fetch both prices through the facade against `usd`;
reply no-price when either price is JS-falsy (`null` or `0`, the
`!fromPrice || !toPrice` test on line 31); otherwise compute
`amount * (fromPrice / toPrice)`. -/
def handleConvert (fetchCG fetchBin : String → String → Option ℚ)
    (prefCfg : Option (List String)) (cache : Cache) (now : ℕ)
    (amount : ℚ) (fromSym toSym : String) : ConvertOutcome × Cache :=
  if amount ≤ 0 then (.invalidAmount, cache)
  else
    let r1 := getAggregatedPrice fetchCG fetchBin prefCfg cache now fromSym "usd"
    let r2 := getAggregatedPrice fetchCG fetchBin prefCfg r1.2 now toSym "usd"
    match r1.1, r2.1 with
    | some f, some t =>
      if f = 0 ∨ t = 0 then (.noPrice, r2.2)
      else (.converted (amount * (f / t)), r2.2)
    | some _, none => (.noPrice, r2.2)
    | none, _ => (.noPrice, r2.2)

/-! ### Spec-side definitions for refinement comparison -/

/-- Median rule as the specification words it for the claim under review:
sort ascending and take the LOWER of the two middle values for an even
count (index `(n-1)/2`), the middle for odd. Stated over `insertionSort`
so that agreement with the code-side `resolvePrices` is a genuine
refinement fact, not a definitional restatement. -/
def specMedianLower (l : List ℚ) : Option ℚ :=
  (l.insertionSort (fun a b => a ≤ b))[(l.length - 1) / 2]?

/-- Median rule actually implemented by the code: sort ascending and take
the UPPER of the two middle values for an even count (index `n/2`), the
middle for odd. -/
def specMedianUpper (l : List ℚ) : Option ℚ :=
  (l.insertionSort (fun a b => a ≤ b))[l.length / 2]?

/-! ### Helper lemmas -/

/-- The sealed core `mergeSort` agrees with Mathlib's structural
`insertionSort` on rationals, which lets concrete instances evaluate. -/
theorem mergeSort_rat_eq_insertionSort (l : List ℚ) :
    l.mergeSort (fun a b => a ≤ b) = l.insertionSort (fun a b => a ≤ b) :=
  List.mergeSort_eq_insertionSort (r := fun a b : ℚ => a ≤ b) l

/-- Evaluation form of the consensus pick. -/
theorem resolvePrices_eq_upper (l : List ℚ) : resolvePrices l = specMedianUpper l := by
  unfold resolvePrices specMedianUpper
  rw [mergeSort_rat_eq_insertionSort]

/-- Sorting a permuted list gives the same sorted list. -/
theorem mergeSort_rat_perm_eq {l l2 : List ℚ} (h : l.Perm l2) :
    l.mergeSort (fun a b => a ≤ b) = l2.mergeSort (fun a b => a ≤ b) :=
  List.eq_of_perm_of_sorted
    (((List.mergeSort_perm l _).trans h).trans (List.mergeSort_perm l2 _).symm)
    (List.sorted_mergeSort' l) (List.sorted_mergeSort' l2)

/-- The consensus pick is invariant under permutation of its input. -/
theorem resolvePrices_perm {l l2 : List ℚ} (h : l.Perm l2) :
    resolvePrices l = resolvePrices l2 := by
  unfold resolvePrices
  rw [mergeSort_rat_perm_eq h, h.length_eq]

/-- A consensus value is one of the input prices. -/
theorem resolvePrices_mem {l : List ℚ} {m : ℚ} (h : resolvePrices l = some m) : m ∈ l := by
  unfold resolvePrices at h
  rw [List.getElem?_eq_some_iff] at h
  obtain ⟨hlt, he⟩ := h
  exact List.mem_mergeSort.mp (he ▸ List.getElem_mem hlt)

/-- A nonempty price list always has a consensus value. -/
theorem resolvePrices_isSome {l : List ℚ} (h : l ≠ []) : ∃ m, resolvePrices l = some m := by
  have hpos : 0 < l.length := List.length_pos.mpr h
  have hlt : l.length / 2 < (l.mergeSort (fun a b => a ≤ b)).length := by
    rw [List.length_mergeSort]
    exact Nat.div_lt_self hpos one_lt_two
  exact ⟨_, List.getElem?_eq_getElem hlt⟩

/-- When both clients are absent, the fan-out loop collects nothing,
whatever the configured provider list is. -/
theorem gatherResults_eq_nil {fCG fBin : String → String → Option ℚ} {s v : String}
    (h1 : fCG s v = none) (h2 : fBin s v = none) :
    ∀ ps, gatherResults fCG fBin s v ps = [] := by
  intro ps
  induction ps with
  | nil => rfl
  | cons p rest ih =>
    by_cases hp : p = "coingecko"
    · simp [gatherResults, hp, h1, ih]
    · by_cases hb : p = "binance"
      · simp [gatherResults, hp, hb, h2, ih]
      · simp [gatherResults, hp, hb, ih]

/-- With CoinGecko answering and Binance absent, the default fan-out
collects exactly the one CoinGecko result. -/
theorem gatherResults_single {fCG fBin : String → String → Option ℚ} {s v : String} {q : ℚ}
    (h1 : fCG s v = some q) (h2 : fBin s v = none) :
    gatherResults fCG fBin s v defaultProviders = [⟨"coingecko", q⟩] := by
  simp [gatherResults, defaultProviders, h1, h2]

/-- The candidate loop of the Binance client is the first-hit search over
the candidate list. -/
theorem tryPairs_eq_findSome (resp : String → BinResp) (ps : List String) :
    tryPairs resp ps = ps.findSome? (fun p => (priceIfTruthy (resp p)).map jsNumber) := by
  induction ps with
  | nil => rfl
  | cons p rest ih =>
    rw [List.findSome?_cons]
    cases hp : priceIfTruthy (resp p) <;> simp [tryPairs, hp, ih]

/-- A present outcome of the candidate loop comes from some candidate whose
response passed the truthiness test. -/
theorem tryPairs_some {resp : String → BinResp} {ps : List String} {x : JsNum}
    (h : tryPairs resp ps = some x) :
    ∃ p ∈ ps, ∃ s, priceIfTruthy (resp p) = some s ∧ x = jsNumber s := by
  induction ps with
  | nil => simp [tryPairs] at h
  | cons p rest ih =>
    rw [tryPairs] at h
    cases hp : priceIfTruthy (resp p) with
    | some s =>
      rw [hp] at h
      exact ⟨p, List.mem_cons_self p rest, s, hp, (Option.some_inj.mp h).symm⟩
    | none =>
      rw [hp] at h
      obtain ⟨p2, hmem, s, hs, hx⟩ := ih h
      exact ⟨p2, List.mem_cons_of_mem p hmem, s, hs, hx⟩

/-! ### Claim theorems -/

/-- Claim C1, counterexample: the claim says the Consensus Resolver takes
the LOWER of the two middle values for an even count, so that resolving
[100, 200] yields 100. The code (aggregator.js line 38) indexes the
ascending sort at `Math.floor(prices.length/2)`, which for two elements is
index 1, the UPPER middle: resolving [100, 200] yields 200, not the
claimed 100 (the spec-worded lower-middle rule would give 100). -/
theorem c1_counterexample :
    resolvePrices [100, 200] = some 200 ∧
    resolvePrices [100, 200] ≠ some 100 ∧
    specMedianLower [100, 200] = some 100 := by
  have h := resolvePrices_eq_upper [100, 200]
  refine ⟨?_, ?_, by decide⟩
  · rw [h]; decide
  · rw [h]; decide

/-- Claim C1, amended: after discarding absent results, the output value is
the median of the present prices taking the UPPER of the two middle values
when the count is even (the element at index `floor(n/2)` of the ascending
sort); resolving [100, 102, 98] yields 100, and resolving the even-count
list [100, 200] yields 200. -/
theorem c1_theorem :
    (∀ l : List ℚ, resolvePrices l = specMedianUpper l) ∧
    resolvePrices [100, 102, 98] = some 100 ∧
    resolvePrices [100, 200] = some 200 := by
  refine ⟨resolvePrices_eq_upper, ?_, ?_⟩ <;> rw [resolvePrices_eq_upper] <;> decide

/-- Claim C8: the Consensus Resolver output over present provider prices is
invariant under permutation of the input list — the aggregated value does
not depend on the arrival order of provider responses. -/
theorem c8_theorem (l l2 : List ℚ) (h : l.Perm l2) :
    resolvePrices l = resolvePrices l2 :=
  resolvePrices_perm h

/-- Witness for C8 at a concrete permutation pair. -/
theorem c8_witness :
    ([100, 200, 50] : List ℚ).Perm [50, 100, 200] ∧
    resolvePrices [100, 200, 50] = resolvePrices [50, 100, 200] :=
  ⟨by decide, c8_theorem [100, 200, 50] [50, 100, 200] (by decide)⟩

/-- Claim C10: a present consensus value is an element of the input price
list (the resolver never fabricates a price), hence positive whenever all
present prices are; and on a cache miss the facade writes exactly the value
it returns under the query's key with the current timestamp. -/
theorem c10_theorem :
    (∀ (l : List ℚ) (m : ℚ), resolvePrices l = some m →
      m ∈ l ∧ ((∀ x ∈ l, 0 < x) → 0 < m)) ∧
    (∀ (fCG fBin : String → String → Option ℚ) (prefCfg : Option (List String))
      (cache : Cache) (now : ℕ) (s v : String),
      cache.lookup (getCacheKey s v) = none →
      (getAggregatedPrice fCG fBin prefCfg cache now s v).2.lookup (getCacheKey s v) =
        some ⟨now, (getAggregatedPrice fCG fBin prefCfg cache now s v).1⟩) := by
  constructor
  · intro l m h
    have hm := resolvePrices_mem h
    exact ⟨hm, fun hall => hall m hm⟩
  · intro fCG fBin prefCfg cache now s v hmiss
    simp only [getAggregatedPrice, aggregateFresh, hmiss]
    by_cases hlen :
        (gatherResults fCG fBin s v (prefCfg.getD defaultProviders)).length = 0 <;>
      simp [hlen, List.lookup]

/-- Witness for C10: the single price 7 is its own consensus and is
positive; a miss on an empty cache writes the returned outcome. -/
theorem c10_witness :
    (resolvePrices [7] = some 7 → (7 : ℚ) ∈ ([7] : List ℚ) ∧
      ((∀ x ∈ ([7] : List ℚ), 0 < x) → (0 : ℚ) < 7)) ∧
    (getAggregatedPrice (fun _ _ => none) (fun _ _ => none) none [] 0 "btc" "usd").2.lookup
        (getCacheKey "btc" "usd") =
      some ⟨0, (getAggregatedPrice (fun _ _ => none) (fun _ _ => none) none [] 0 "btc" "usd").1⟩ :=
  ⟨c10_theorem.1 [7] 7,
   c10_theorem.2 (fun _ _ => none) (fun _ _ => none) none [] 0 "btc" "usd" (by decide)⟩

/-- Claim C2: while the cache holds an entry for the key whose age
`now - writtenAt` is strictly below the 10-second TTL, `getAggregatedPrice`
returns exactly the value last written for that key and leaves the cache
untouched — and since this holds for every pair of provider functions, no
provider client is invoked; once the age reaches the TTL, the entry is
ignored and the fresh-aggregation path runs instead. -/
theorem c2_theorem (fCG fBin fCG2 fBin2 : String → String → Option ℚ)
    (prefCfg : Option (List String)) (cache : Cache) (now ts : ℕ)
    (symbol vs : String) (v : Option ℚ)
    (hlook : cache.lookup (getCacheKey symbol vs) = some ⟨ts, v⟩) :
    (now - ts < TTL →
      getAggregatedPrice fCG fBin prefCfg cache now symbol vs = (v, cache) ∧
      getAggregatedPrice fCG fBin prefCfg cache now symbol vs =
        getAggregatedPrice fCG2 fBin2 prefCfg cache now symbol vs) ∧
    (TTL ≤ now - ts →
      getAggregatedPrice fCG fBin prefCfg cache now symbol vs =
        aggregateFresh fCG fBin prefCfg cache now symbol vs) := by
  constructor
  · intro h
    constructor <;> simp [getAggregatedPrice, hlook, h]
  · intro h
    simp [getAggregatedPrice, hlook, not_lt.mpr h]

/-- Witness for C2: a hit at age 5000 ms returns the cached 5 unchanged;
the same entry at age 20000 ms is expired and the call takes the fresh
path, which with absent providers writes a null entry. -/
theorem c2_witness :
    List.lookup (getCacheKey "BTC" "usd") [(("btc_usd" : String), CacheEntry.mk 0 (some 5))] =
      some ⟨0, some 5⟩ ∧
    5000 - 0 < TTL ∧
    getAggregatedPrice (fun _ _ => some 999) (fun _ _ => some 111) none
        [("btc_usd", ⟨0, some 5⟩)] 5000 "BTC" "usd" =
      (some 5, [("btc_usd", ⟨0, some 5⟩)]) ∧
    TTL ≤ 20000 - 0 ∧
    getAggregatedPrice (fun _ _ => none) (fun _ _ => none) none
        [("btc_usd", ⟨0, some 5⟩)] 20000 "BTC" "usd" =
      aggregateFresh (fun _ _ => none) (fun _ _ => none) none
        [("btc_usd", ⟨0, some 5⟩)] 20000 "BTC" "usd" :=
  ⟨by decide, by decide,
   ((c2_theorem (fun _ _ => some 999) (fun _ _ => some 111) (fun _ _ => some 7)
      (fun _ _ => some 8) none [("btc_usd", ⟨0, some 5⟩)] 5000 0 "BTC" "usd" (some 5)
      (by decide)).1 (by decide)).1,
   by decide,
   (c2_theorem (fun _ _ => none) (fun _ _ => none) (fun _ _ => none) (fun _ _ => none)
      none [("btc_usd", ⟨0, some 5⟩)] 20000 0 "BTC" "usd" (some 5) (by decide)).2
      (by decide)⟩

/-- Claim C5: on a cache miss with every configured provider absent, the
aggregation returns `none` (the distinct no-price outcome, not a numeric
sentinel) and writes that same negative outcome to the cache under the
query's key with the current timestamp. -/
theorem c5_theorem (fCG fBin : String → String → Option ℚ)
    (prefCfg : Option (List String)) (cache : Cache) (now : ℕ) (s v : String)
    (h1 : fCG s v = none) (h2 : fBin s v = none)
    (hmiss : cache.lookup (getCacheKey s v) = none) :
    getAggregatedPrice fCG fBin prefCfg cache now s v =
      (none, (getCacheKey s v, ⟨now, none⟩) :: cache) ∧
    (getAggregatedPrice fCG fBin prefCfg cache now s v).2.lookup (getCacheKey s v) =
      some ⟨now, none⟩ := by
  have hgather := gatherResults_eq_nil h1 h2 (prefCfg.getD defaultProviders)
  have hmain : getAggregatedPrice fCG fBin prefCfg cache now s v =
      (none, (getCacheKey s v, ⟨now, none⟩) :: cache) := by
    simp [getAggregatedPrice, aggregateFresh, hmiss, hgather]
  exact ⟨hmain, by rw [hmain]; simp [List.lookup]⟩

/-- Witness for C5: both providers absent on an empty cache yields the
no-price outcome and caches it. -/
theorem c5_witness :
    getAggregatedPrice (fun _ _ => none) (fun _ _ => none) none [] 0 "xyz" "usd" =
      (none, [(getCacheKey "xyz" "usd", ⟨0, none⟩)]) ∧
    (getAggregatedPrice (fun _ _ => none) (fun _ _ => none) none [] 0 "xyz" "usd").2.lookup
      (getCacheKey "xyz" "usd") = some ⟨0, none⟩ :=
  c5_theorem (fun _ _ => none) (fun _ _ => none) none [] 0 "xyz" "usd" rfl rfl (by decide)

/-- Claim C9, counterexample: the claim says the aggregation result carries
a `sourceCount` equal to the number of present provider results. The code
(aggregator.js lines 37-40) returns the bare median number: one present
result of 42 and three present results of 42 produce the identical outcome
`42`, although their present-result counts differ, so the returned outcome
cannot carry the count of sources. -/
theorem c9_counterexample :
    resolveResults [⟨"coingecko", 42⟩] = some 42 ∧
    resolveResults [⟨"coingecko", 42⟩, ⟨"binance", 42⟩, ⟨"other", 42⟩] = some 42 ∧
    ([⟨"coingecko", (42 : ℚ)⟩] : List ProviderResult).length ≠
      ([⟨"coingecko", 42⟩, ⟨"binance", 42⟩, ⟨"other", 42⟩] : List ProviderResult).length := by
  refine ⟨?_, ?_, by decide⟩ <;> simp [resolveResults, resolvePrices_eq_upper] <;> decide

/-- Claim C9, amended: when exactly one provider answers with price 42 and
the other is absent, the aggregated outcome is the bare value 42 (which is
then cached); the number of present results is 1, but the returned outcome
does not include a `sourceCount` field. -/
theorem c9_theorem (fCG fBin : String → String → Option ℚ) (cache : Cache)
    (now : ℕ) (s v : String)
    (h1 : fCG s v = some 42) (h2 : fBin s v = none)
    (hmiss : cache.lookup (getCacheKey s v) = none) :
    getAggregatedPrice fCG fBin none cache now s v =
      (some 42, (getCacheKey s v, ⟨now, some 42⟩) :: cache) ∧
    (gatherResults fCG fBin s v defaultProviders).length = 1 := by
  have hgather := gatherResults_single h1 h2
  constructor
  · simp [getAggregatedPrice, aggregateFresh, hmiss, hgather, resolvePrices_eq_upper]
    decide
  · rw [hgather]
    rfl

/-- Witness for C9 at a concrete one-provider scenario. -/
theorem c9_witness :
    getAggregatedPrice (fun _ _ => some 42) (fun _ _ => none) none [] 0 "btc" "usd" =
      (some 42, [(getCacheKey "btc" "usd", ⟨0, some 42⟩)]) ∧
    (gatherResults (fun _ _ => some 42) (fun _ _ => none) "btc" "usd" defaultProviders).length
      = 1 :=
  c9_theorem (fun _ _ => some 42) (fun _ _ => none) [] 0 "btc" "usd" rfl rfl (by decide)

/-- Claim C3: in the conversion handler, when the denominator price
(`toPrice`, the facade result for the target symbol) resolves to the
no-price outcome or to zero, the conversion fails with the no-price
outcome; and every computed conversion value comes from a guarded division
with a nonzero denominator, so no Infinity or NaN can be produced. -/
theorem c3_theorem (fCG fBin : String → String → Option ℚ)
    (prefCfg : Option (List String)) (cache : Cache) (now : ℕ) (amount : ℚ)
    (fromSym toSym : String) (hamt : 0 < amount) :
    (((getAggregatedPrice fCG fBin prefCfg
          (getAggregatedPrice fCG fBin prefCfg cache now fromSym "usd").2
          now toSym "usd").1 = none ∨
      (getAggregatedPrice fCG fBin prefCfg
          (getAggregatedPrice fCG fBin prefCfg cache now fromSym "usd").2
          now toSym "usd").1 = some 0) →
      (handleConvert fCG fBin prefCfg cache now amount fromSym toSym).1 =
        ConvertOutcome.noPrice) ∧
    (∀ q : ℚ,
      (handleConvert fCG fBin prefCfg cache now amount fromSym toSym).1 =
        ConvertOutcome.converted q →
      ∃ f t : ℚ,
        (getAggregatedPrice fCG fBin prefCfg cache now fromSym "usd").1 = some f ∧
        (getAggregatedPrice fCG fBin prefCfg
          (getAggregatedPrice fCG fBin prefCfg cache now fromSym "usd").2
          now toSym "usd").1 = some t ∧
        f ≠ 0 ∧ t ≠ 0 ∧ q = amount * (f / t)) := by
  have hnle : ¬ amount ≤ 0 := not_le.mpr hamt
  constructor
  · intro htp
    rcases h1 : (getAggregatedPrice fCG fBin prefCfg cache now fromSym "usd").1 with _ | f
    · simp [handleConvert, hnle, h1]
    · rcases htp with h2 | h2 <;> simp [handleConvert, hnle, h1, h2]
  · intro q hq
    rcases h1 : (getAggregatedPrice fCG fBin prefCfg cache now fromSym "usd").1 with _ | f
    · simp [handleConvert, hnle, h1] at hq
    · rcases h2 : (getAggregatedPrice fCG fBin prefCfg
          (getAggregatedPrice fCG fBin prefCfg cache now fromSym "usd").2
          now toSym "usd").1 with _ | t
      · simp [handleConvert, hnle, h1, h2] at hq
      · by_cases hz : f = 0 ∨ t = 0
        · simp [handleConvert, hnle, h1, h2, hz] at hq
        · push_neg at hz
          simp [handleConvert, hnle, h1, h2, hz.1, hz.2] at hq
          exact ⟨f, t, rfl, rfl, hz.1, hz.2, hq.symm⟩

/-- Witness for C3: with both providers absent, the target price resolves
to the no-price outcome and the conversion of 2 btc to eth fails with
the no-price outcome. -/
theorem c3_witness :
    (0 : ℚ) < 2 ∧
    (getAggregatedPrice (fun _ _ => none) (fun _ _ => none) none
        (getAggregatedPrice (fun _ _ => none) (fun _ _ => none) none [] 0 "btc" "usd").2
        0 "eth" "usd").1 = none ∧
    (handleConvert (fun _ _ => none) (fun _ _ => none) none [] 0 2 "btc" "eth").1 =
      ConvertOutcome.noPrice :=
  ⟨by decide, by decide,
   (c3_theorem (fun _ _ => none) (fun _ _ => none) none [] 0 2 "btc" "eth"
      (by decide)).1 (Or.inl (by decide))⟩

/-- Claim C4, counterexample: the claim says every non-null provider
result is a positive finite price. The clients validate nothing beyond
field presence: a CoinGecko response reporting a price of 0 for bitcoin/usd
passes the `=== undefined` check of coingecko.js line 24 and is returned as
the non-null result 0, which is not positive. -/
theorem c4_counterexample :
    fetchFromCoinGecko
      (CGResp.ok (fun i => if i = "bitcoin"
        then some (fun c => if c = "usd" then some 0 else none) else none))
      "btc" "usd" = some 0 ∧
    ¬ (0 : ℚ) > 0 :=
  ⟨by decide, by decide⟩

/-- Claim C4, amended: whenever `fetchFromBinance` or `fetchFromCoinGecko`
returns a non-null value, that value is exactly the JS-numeric reading of
the price field found in the provider response — no positivity or
finiteness validation is applied, so a zero, negative, or non-numeric
reported price is passed through as-is. -/
theorem c4_theorem :
    (∀ (resp : CGResp) (s v : String) (q : ℚ),
      fetchFromCoinGecko resp s v = some q →
      ∃ data entry, resp = CGResp.ok data ∧ data (cgId s) = some entry ∧
        entry (strLower v) = some q) ∧
    (∀ (resp : String → BinResp) (s v : String) (x : JsNum),
      fetchFromBinance resp s v = some x →
      ∃ p ∈ binancePairs s v, ∃ str, priceIfTruthy (resp p) = some str ∧
        x = jsNumber str) := by
  constructor
  · intro resp s v q h
    cases resp with
    | fail => simp [fetchFromCoinGecko] at h
    | ok data =>
      cases hd : data (cgId s) with
      | none => simp [fetchFromCoinGecko, hd] at h
      | some entry =>
        cases he : entry (strLower v) with
        | none => simp [fetchFromCoinGecko, hd, he] at h
        | some q0 =>
          simp [fetchFromCoinGecko, hd, he] at h
          exact ⟨data, entry, rfl, hd, h ▸ he⟩
  · intro resp s v x h
    exact tryPairs_some h

/-- Witness for C4 at a concrete provider response carrying price 5. -/
theorem c4_witness :
    fetchFromCoinGecko
      (CGResp.ok (fun i => if i = "bitcoin"
        then some (fun c => if c = "usd" then some 5 else none) else none))
      "btc" "usd" = some 5 ∧
    ∃ data entry,
      CGResp.ok (fun i => if i = "bitcoin"
        then some (fun c => if c = "usd" then some (5 : ℚ) else none) else none) =
        CGResp.ok data ∧
      data (cgId "btc") = some entry ∧ entry (strLower "usd") = some 5 :=
  ⟨by decide,
   c4_theorem.1 (CGResp.ok (fun i => if i = "bitcoin"
      then some (fun c => if c = "usd" then some 5 else none) else none))
     "btc" "usd" 5 (by decide)⟩

/-- Claim C6: neither provider client raises an error to its caller; a
thrown request (timeout or non-2xx), a missing coin entry, and a missing
price field each produce the absent result, for CoinGecko directly and for
Binance whenever every candidate pair fails, so the only outcomes are a
numeric price or absence. -/
theorem c6_theorem :
    (∀ s v, fetchFromCoinGecko CGResp.fail s v = none) ∧
    (∀ s v data, data (cgId s) = none →
      fetchFromCoinGecko (CGResp.ok data) s v = none) ∧
    (∀ s v data entry, data (cgId s) = some entry → entry (strLower v) = none →
      fetchFromCoinGecko (CGResp.ok data) s v = none) ∧
    (∀ (resp : String → BinResp) s v, (∀ p, priceIfTruthy (resp p) = none) →
      fetchFromBinance resp s v = none) := by
  refine ⟨fun s v => rfl, ?_, ?_, ?_⟩
  · intro s v data hd
    simp [fetchFromCoinGecko, hd]
  · intro s v data entry hd he
    simp [fetchFromCoinGecko, hd, he]
  · intro resp s v hall
    rw [fetchFromBinance, tryPairs_eq_findSome, List.findSome?_eq_none_iff]
    intro p _
    rw [hall p]
    rfl

/-- Witness for C6 at concrete failing responses: a thrown CoinGecko
request, an empty CoinGecko body, a body missing the usd field, and a
Binance run where every candidate throws, each yield absence. -/
theorem c6_witness :
    fetchFromCoinGecko CGResp.fail "btc" "usd" = none ∧
    fetchFromCoinGecko (CGResp.ok (fun _ => none)) "btc" "usd" = none ∧
    fetchFromCoinGecko (CGResp.ok (fun _ => some (fun _ => none))) "btc" "usd" = none ∧
    fetchFromBinance (fun _ => BinResp.fail) "btc" "usd" = none :=
  ⟨c6_theorem.1 "btc" "usd",
   c6_theorem.2.1 "btc" "usd" (fun _ => none) rfl,
   c6_theorem.2.2.1 "btc" "usd" (fun _ => some (fun _ => none)) (fun _ => none) rfl rfl,
   c6_theorem.2.2.2 (fun _ => BinResp.fail) "btc" "usd" (fun _ => rfl)⟩

/-- Claim C7: the Binance client attempts candidate pair spellings in
exactly the order [S+V, S+USDT, S+USD] (uppercased), returns the numeric
reading of the price of the first candidate whose response contains a
(truthy) price, and is absent precisely when all three candidates fail. -/
theorem c7_theorem (resp : String → BinResp) (s v : String) :
    binancePairs s v =
      [strUpper s ++ strUpper v, strUpper s ++ "USDT", strUpper s ++ "USD"] ∧
    fetchFromBinance resp s v =
      (binancePairs s v).findSome? (fun p => (priceIfTruthy (resp p)).map jsNumber) ∧
    (fetchFromBinance resp s v = none ↔
      ∀ p ∈ binancePairs s v, priceIfTruthy (resp p) = none) := by
  refine ⟨rfl, tryPairs_eq_findSome resp (binancePairs s v), ?_⟩
  rw [fetchFromBinance, tryPairs_eq_findSome, List.findSome?_eq_none_iff]
  constructor
  · intro h p hp
    have := h p hp
    cases hq : priceIfTruthy (resp p) with
    | none => rfl
    | some str => rw [hq] at this; simp at this
  · intro h p hp
    rw [h p hp]
    rfl
